import Mathlib

/-!
Verification of the template-compilation driver in `src/lib.rs` of ructe
(`compile_templates`, `handle_entries`, `handle_template`), together with a
spec-level model of the runtime support library (`template_utils.rs`, whose
source is not part of this tree).

The driver walks an input directory tree, parses every `*.rs.html` file with
the nom-based template parser and writes generated Rust source into a mirrored
output tree.  We embed it as a computation in a small I/O-simulation monad: a
run counts the fallible filesystem operations it performs (every `try!` /
`and_then` step of the Rust code is one operation) and a "world" may mark one
operation index as failing, which models an `io::Error` at that point.  The
template parser itself (src/template.rs) and the generated code are opaque to
the driver, so they enter the model as parameters: a parse function returning
nom's tri-state `IResult`, and a template value carrying the text that
`write_rust` would emit for a given function name.
-/

namespace Ructe

/-- Byte strings, the raw contents of a template file (`Vec<u8>` in the code). -/
abbrev Bytes := List Nat

/-- Model of nom 1.x `IResult` as matched in `handle_template` (src/lib.rs
lines 143-164): `Done` carries the remaining input and the parsed value,
`Error` a printable description, `Incomplete` a printable `Needed` amount. -/
inductive IResult (α : Type) where
  | Done (rest : Bytes) (val : α)
  | Error (err : String)
  | Incomplete (needed : String)

/-- Modelled from the spec: the Template intermediate representation and its
code generator live in src/template.rs, which is not part of this tree.  The
IR is opaque to the driver; `gen name` is the target-language source text that
`t.write_rust(f, name)` emits for a template function called `name`. -/
structure Tmpl where
  gen : String → String

/-- A directory entry of the input tree.  `entry.file_name().to_str()` in the
code yields `None` exactly when the name is not valid UTF-8, which we model by
an `Option String` name.  A file entry also carries the bytes that reading the
file would produce. -/
inductive Entry where
  | file (name : Option String) (content : Bytes)
  | dir (name : Option String) (entries : List Entry)

/-- The I/O-simulation monad: a computation takes the index of the next
fallible filesystem operation and either fails or returns a value together
with the next free index. -/
def M (α : Type) : Type := Nat → Except Unit (α × Nat)

/-- Return of the I/O-simulation monad: no operation performed. -/
def mret {α : Type} (a : α) : M α := fun n => .ok (a, n)

/-- Sequencing of the I/O-simulation monad (`and_then` / `try!` in the code):
an error in the first computation short-circuits the second. -/
def mbind {α β : Type} (m : M α) (f : α → M β) : M β := fun n =>
  match m n with
  | .error e => .error e
  | .ok (a, n') => f a n'

/-- One fallible filesystem operation.  The world `w` optionally names a
single operation index at which the filesystem produces an `io::Error`;
`w = none` is a run in which no I/O operation fails. -/
def ioOp (w : Option Nat) : M Unit := fun n =>
  if w = some n then .error () else .ok ((), n + 1)

/-- Rust `str::ends_with` on the characters of the string (the suffix used in
`handle_entries` is plain ASCII, so character and byte suffixes agree). -/
def ends_with (s suffix : String) : Bool := suffix.data.isSuffixOf s.data

/-- The slice `&filename[..filename.len() - suffix.len()]` of src/lib.rs line
125, on the characters of the string. -/
def strip_suffix (s suffix : String) : String :=
  ⟨s.data.take (s.data.length - suffix.data.length)⟩

/-- The value produced by processing entries: the text written to the parent
module file `f`, the output files created (path components relative to the
current output directory, with their contents), and the `cargo:warning=`
lines printed. -/
abbrev OutVal := String × List (List String × String) × List String

/-- Embeds `handle_template` (src/lib.rs lines 139-166).  Operations in
order: `File::open(path)`, `read_to_end`; then on a successful parse
`File::create(template_{name}.rs)` and `t.write_rust(&mut f, name)`.  On
`Error` or `Incomplete` the function prints one `cargo:warning=` line naming
the path and returns `Ok(false)`; on `Done` it returns `Ok(true)`.  The result
value is the returned boolean, the files created and the warnings printed.
The bytes the file read yields are supplied as `content`. -/
def handle_template (P : Bytes → IResult Tmpl) (w : Option Nat)
    (name : String) (path : String) (content : Bytes) :
    M (Bool × List (List String × String) × List String) :=
  mbind (ioOp w) fun _ =>
  mbind (ioOp w) fun _ =>
  match P content with
  | .Done _ t =>
      mbind (ioOp w) fun _ =>
      mbind (ioOp w) fun _ =>
      mret (true, [(["template_" ++ name ++ ".rs"], t.gen name)], [])
  | .Error err =>
      mret (false, [],
        ["cargo:warning=Template parse error in \"" ++ path ++ "\": " ++ err])
  | .Incomplete needed =>
      mret (false, [],
        ["cargo:warning=Failed to parse template \"" ++ path ++ "\": "
          ++ needed ++ " needed"])

mutual

/-- Embeds one iteration of the `for entry in try!(read_dir(indir))` loop in
`handle_entries` (src/lib.rs lines 110-135).  Operations: `try!(entry)` and
`try!(entry.file_type())`; then for a directory with a UTF-8 name
`create_dir_all`, `File::create(mod.rs)` chained into the recursive
`handle_entries` (whose own `read_dir` is the next operation) and the
`write!(f, "pub mod {name};\n\n")`; for a file with a UTF-8 name ending in
`.rs.html`, `handle_template` and, when it returned true, the
`write!` of the module declaration and re-export.  Entries whose name is not
valid UTF-8, and files without the suffix, produce nothing. -/
def handle_entry (P : Bytes → IResult Tmpl) (w : Option Nat) (indir : String) :
    Entry → M OutVal
  | .file none _ => mbind (ioOp w) fun _ => mbind (ioOp w) fun _ => mret ("", [], [])
  | .dir none _ => mbind (ioOp w) fun _ => mbind (ioOp w) fun _ => mret ("", [], [])
  | .dir (some filename) es =>
      mbind (ioOp w) fun _ =>
      mbind (ioOp w) fun _ =>
      mbind (ioOp w) fun _ =>
      mbind (ioOp w) fun _ =>
      mbind (mbind (ioOp w) fun _ =>
             handle_entries_loop P w (indir ++ "/" ++ filename) es) fun r =>
      mbind (ioOp w) fun _ =>
      mret ("pub mod " ++ filename ++ ";\n\n",
            ([filename, "mod.rs"], r.1)
              :: r.2.1.map (fun p => (filename :: p.1, p.2)),
            r.2.2)
  | .file (some filename) content =>
      mbind (ioOp w) fun _ =>
      mbind (ioOp w) fun _ =>
      if ends_with filename ".rs.html" then
        let name := strip_suffix filename ".rs.html"
        mbind (handle_template P w name (indir ++ "/" ++ filename) content) fun r =>
        if r.1 then
          mbind (ioOp w) fun _ =>
          mret ("mod template_" ++ name ++ ";\npub use self::template_"
                  ++ name ++ "::" ++ name ++ ";\n\n",
                r.2.1, r.2.2)
        else mret ("", r.2.1, r.2.2)
      else mret ("", [], [])

/-- The body of the `for` loop of `handle_entries`, over the list of entries
`read_dir` yields, concatenating in order the text written to `f`, the files
created and the warnings printed. -/
def handle_entries_loop (P : Bytes → IResult Tmpl) (w : Option Nat)
    (indir : String) : List Entry → M OutVal
  | [] => mret ("", [], [])
  | e :: es =>
      mbind (handle_entry P w indir e) fun r =>
      mbind (handle_entries_loop P w indir es) fun r' =>
      mret (r.1 ++ r'.1, r.2.1 ++ r'.2.1, r.2.2 ++ r'.2.2)

end

/-- Embeds `handle_entries` (src/lib.rs lines 105-137): the
`try!(read_dir(indir))` operation followed by the loop over the entries. -/
def handle_entries (P : Bytes → IResult Tmpl) (w : Option Nat)
    (indir : String) (es : List Entry) : M OutVal :=
  mbind (ioOp w) fun _ => handle_entries_loop P w indir es

/-- The fixed text `compile_templates` writes before the module declarations. -/
def templatesHeader : String :=
  "mod templates \x7b\nuse std::io::\x7bself, Write\x7d;\nuse std::fmt::Display;\n\n"

/-- Embeds `compile_templates` (src/lib.rs lines 88-103).  Operations:
`File::create(templates.rs)`, the header `write!`, `create_dir_all` of the
`templates` output subdirectory, `handle_entries` (starting with its
`read_dir`), and the footer `write!` that embeds the source text of
src/template_utils.rs (not part of this tree, abstracted as `utils`) followed
by the closing brace of `mod templates`.  The result value is the list of
files created (templates.rs at the output root, everything else below
`templates/`) and the warnings printed. -/
def compile_templates (P : Bytes → IResult Tmpl) (w : Option Nat)
    (utils : String) (indir : String) (es : List Entry) :
    M (List (List String × String) × List String) :=
  mbind (ioOp w) fun _ =>
  mbind (ioOp w) fun _ =>
  mbind (ioOp w) fun _ =>
  mbind (handle_entries P w indir es) fun r =>
  mbind (ioOp w) fun _ =>
  mret ((["templates.rs"],
          templatesHeader ++ r.1 ++ utils ++ "\n\x7d\n")
          :: r.2.1.map (fun p => ("templates" :: p.1, p.2)),
        r.2.2)

/-! ### The value and operation count of a run in which no I/O fails -/

/-- The value `handle_template` produces: the boolean it returns, the files it
creates and the warnings it prints, as a pure function of the parse result. -/
def htOut (P : Bytes → IResult Tmpl) (name path : String) (content : Bytes) :
    Bool × List (List String × String) × List String :=
  match P content with
  | .Done _ t => (true, [(["template_" ++ name ++ ".rs"], t.gen name)], [])
  | .Error err =>
      (false, [],
        ["cargo:warning=Template parse error in \"" ++ path ++ "\": " ++ err])
  | .Incomplete needed =>
      (false, [],
        ["cargo:warning=Failed to parse template \"" ++ path ++ "\": "
          ++ needed ++ " needed"])

/-- The number of fallible operations `handle_template` performs: open and
read, plus create and write when the parse succeeds. -/
def htCost (P : Bytes → IResult Tmpl) (content : Bytes) : Nat :=
  match P content with
  | .Done _ _ => 4
  | .Error _ => 2
  | .Incomplete _ => 2

mutual

/-- The value one loop iteration of `handle_entries` produces. -/
def entryOut (P : Bytes → IResult Tmpl) (indir : String) : Entry → OutVal
  | .file none _ => ("", [], [])
  | .dir none _ => ("", [], [])
  | .dir (some filename) es =>
      ("pub mod " ++ filename ++ ";\n\n",
       ([filename, "mod.rs"], (loopOut P (indir ++ "/" ++ filename) es).1)
         :: (loopOut P (indir ++ "/" ++ filename) es).2.1.map
              (fun p => (filename :: p.1, p.2)),
       (loopOut P (indir ++ "/" ++ filename) es).2.2)
  | .file (some filename) content =>
      if ends_with filename ".rs.html" then
        let name := strip_suffix filename ".rs.html"
        let r := htOut P name (indir ++ "/" ++ filename) content
        if r.1 then
          ("mod template_" ++ name ++ ";\npub use self::template_"
             ++ name ++ "::" ++ name ++ ";\n\n",
           r.2.1, r.2.2)
        else ("", r.2.1, r.2.2)
      else ("", [], [])

/-- The value the entry loop of `handle_entries` produces. -/
def loopOut (P : Bytes → IResult Tmpl) (indir : String) : List Entry → OutVal
  | [] => ("", [], [])
  | e :: es =>
      ((entryOut P indir e).1 ++ (loopOut P indir es).1,
       (entryOut P indir e).2.1 ++ (loopOut P indir es).2.1,
       (entryOut P indir e).2.2 ++ (loopOut P indir es).2.2)

end

mutual

/-- The number of fallible operations one loop iteration performs. -/
def entryCost (P : Bytes → IResult Tmpl) : Entry → Nat
  | .file none _ => 2
  | .dir none _ => 2
  | .dir (some _) es => 6 + loopCost P es
  | .file (some filename) content =>
      if ends_with filename ".rs.html" then
        2 + htCost P content + (if (P content) matches .Done _ _ then 1 else 0)
      else 2

/-- The number of fallible operations the entry loop performs. -/
def loopCost (P : Bytes → IResult Tmpl) : List Entry → Nat
  | [] => 0
  | e :: es => entryCost P e + loopCost P es

end

/-- The value `compile_templates` produces: the files created and warnings. -/
def compileOut (P : Bytes → IResult Tmpl) (utils indir : String)
    (es : List Entry) : List (List String × String) × List String :=
  ((["templates.rs"],
      templatesHeader ++ (loopOut P indir es).1 ++ utils ++ "\n\x7d\n")
      :: (loopOut P indir es).2.1.map (fun p => ("templates" :: p.1, p.2)),
    (loopOut P indir es).2.2)

/-- The number of fallible operations `compile_templates` performs. -/
def compileCost (P : Bytes → IResult Tmpl) (es : List Entry) : Nat :=
  5 + loopCost P es

/-! ### Characterizing runs -/

/-- Whether the world `w` makes one of the operations with indices
`n, n+1, ..., n+c-1` fail. -/
def hits (w : Option Nat) (n c : Nat) : Bool :=
  match w with
  | none => false
  | some k => decide (n ≤ k ∧ k < n + c)

/-- A computation `m` runs as value `a` with operation count `c`: started at
any operation index `n` it fails exactly when the world hits one of its `c`
operations, and otherwise returns `a` leaving the index at `n + c`. -/
def RunsAs {α : Type} (w : Option Nat) (m : M α) (a : α) (c : Nat) : Prop :=
  ∀ n, m n = if hits w n c then .error () else .ok (a, n + c)

theorem hits_none (n c : Nat) : hits none n c = false := rfl

theorem hits_add (w : Option Nat) (n c₁ c₂ : Nat) :
    hits w n (c₁ + c₂) = (hits w n c₁ || hits w (n + c₁) c₂) := by
  cases w with
  | none => rfl
  | some k =>
      simp only [hits, ← Bool.decide_or, decide_eq_decide]
      omega

theorem runsAs_ret {α : Type} (w : Option Nat) (a : α) :
    RunsAs w (mret a) a 0 := by
  intro n
  cases w with
  | none => rfl
  | some k =>
      have h : ¬ (n ≤ k ∧ k < n) := by omega
      simp [mret, hits, h]

theorem runsAs_ioOp (w : Option Nat) : RunsAs w (ioOp w) () 1 := by
  intro n
  cases w with
  | none => simp [ioOp, hits]
  | some k =>
      simp only [ioOp, hits, decide_eq_true_eq]
      by_cases h : k = n
      · subst h; simp
      · rw [if_neg (fun hc => h (Option.some.inj hc)),
            if_neg (by omega)]

theorem runsAs_bind {α β : Type} {w : Option Nat} {m : M α} {f : α → M β}
    {a : α} {c₁ : Nat} {b : β} {c₂ : Nat}
    (hm : RunsAs w m a c₁) (hf : RunsAs w (f a) b c₂) :
    RunsAs w (mbind m f) b (c₁ + c₂) := by
  intro n
  rw [hits_add]
  unfold mbind
  rw [hm n]
  by_cases h₁ : hits w n c₁ = true
  · simp [h₁]
  · simp only [h₁, Bool.false_or]
    rw [if_neg (by decide)]
    show f a (n + c₁) = _
    rw [hf (n + c₁)]
    by_cases h₂ : hits w (n + c₁) c₂ = true
    · simp [h₂]
    · simp only [h₂]
      rw [if_neg (by decide), if_neg (by decide), Nat.add_assoc]

theorem runsAs_cast {α : Type} {w : Option Nat} {m : M α} {a : α}
    {c c' : Nat} (hm : RunsAs w m a c) (h : c = c') : RunsAs w m a c' :=
  h ▸ hm

/-- `handle_template` runs as the value `htOut` with operation count `htCost`
in every world. -/
theorem handle_template_runs (P : Bytes → IResult Tmpl) (w : Option Nat)
    (name path : String) (content : Bytes) :
    RunsAs w (handle_template P w name path content)
      (htOut P name path content) (htCost P content) := by
  unfold handle_template htOut htCost
  cases hP : P content with
  | Done rest t =>
      exact runsAs_cast
        (runsAs_bind (runsAs_ioOp w) (runsAs_bind (runsAs_ioOp w)
          (runsAs_bind (runsAs_ioOp w) (runsAs_bind (runsAs_ioOp w)
            (runsAs_ret w _))))) rfl
  | Error err =>
      exact runsAs_cast
        (runsAs_bind (runsAs_ioOp w) (runsAs_bind (runsAs_ioOp w)
          (runsAs_ret w _))) rfl
  | Incomplete needed =>
      exact runsAs_cast
        (runsAs_bind (runsAs_ioOp w) (runsAs_bind (runsAs_ioOp w)
          (runsAs_ret w _))) rfl

mutual

/-- One loop iteration of `handle_entries` runs as `entryOut` with operation
count `entryCost` in every world. -/
theorem handle_entry_runs (P : Bytes → IResult Tmpl) (w : Option Nat)
    (indir : String) : ∀ e : Entry,
    RunsAs w (handle_entry P w indir e) (entryOut P indir e) (entryCost P e)
  | .file none content => by
      simp only [handle_entry, entryOut, entryCost]
      exact runsAs_cast (runsAs_bind (runsAs_ioOp w)
        (runsAs_bind (runsAs_ioOp w) (runsAs_ret w _))) (by omega)
  | .dir none es => by
      simp only [handle_entry, entryOut, entryCost]
      exact runsAs_cast (runsAs_bind (runsAs_ioOp w)
        (runsAs_bind (runsAs_ioOp w) (runsAs_ret w _))) (by omega)
  | .dir (some filename) es => by
      have hrec :=
        handle_entries_loop_runs P w (indir ++ "/" ++ filename) es
      simp only [handle_entry, entryOut, entryCost]
      exact runsAs_cast
        (runsAs_bind (runsAs_ioOp w)
          (runsAs_bind (runsAs_ioOp w)
            (runsAs_bind (runsAs_ioOp w)
              (runsAs_bind (runsAs_ioOp w)
                (runsAs_bind (runsAs_bind (runsAs_ioOp w) hrec)
                  (runsAs_bind (runsAs_ioOp w) (runsAs_ret w _)))))))
        (by omega)
  | .file (some filename) content => by
      simp only [handle_entry, handle_template, entryOut, entryCost, htOut, htCost]
      cases hsuf : ends_with filename ".rs.html" with
      | false =>
          exact runsAs_cast (runsAs_bind (runsAs_ioOp w)
            (runsAs_bind (runsAs_ioOp w) (runsAs_ret w _))) rfl
      | true =>
          cases hP : P content with
          | Done rest t =>
              exact runsAs_cast
                (runsAs_bind (runsAs_ioOp w)
                  (runsAs_bind (runsAs_ioOp w)
                    (runsAs_bind
                      (runsAs_bind (runsAs_ioOp w)
                        (runsAs_bind (runsAs_ioOp w)
                          (runsAs_bind (runsAs_ioOp w)
                            (runsAs_bind (runsAs_ioOp w) (runsAs_ret w _)))))
                      (runsAs_bind (runsAs_ioOp w) (runsAs_ret w _)))))
                rfl
          | Error err =>
              exact runsAs_cast
                (runsAs_bind (runsAs_ioOp w)
                  (runsAs_bind (runsAs_ioOp w)
                    (runsAs_bind
                      (runsAs_bind (runsAs_ioOp w)
                        (runsAs_bind (runsAs_ioOp w) (runsAs_ret w _)))
                      (runsAs_ret w _))))
                rfl
          | Incomplete needed =>
              exact runsAs_cast
                (runsAs_bind (runsAs_ioOp w)
                  (runsAs_bind (runsAs_ioOp w)
                    (runsAs_bind
                      (runsAs_bind (runsAs_ioOp w)
                        (runsAs_bind (runsAs_ioOp w) (runsAs_ret w _)))
                      (runsAs_ret w _))))
                rfl

/-- The entry loop of `handle_entries` runs as `loopOut` with operation count
`loopCost` in every world. -/
theorem handle_entries_loop_runs (P : Bytes → IResult Tmpl) (w : Option Nat)
    (indir : String) : ∀ es : List Entry,
    RunsAs w (handle_entries_loop P w indir es)
      (loopOut P indir es) (loopCost P es)
  | [] => by
      simp only [handle_entries_loop, loopOut, loopCost]
      exact runsAs_ret w _
  | e :: es => by
      have h1 := handle_entry_runs P w indir e
      have h2 := handle_entries_loop_runs P w indir es
      simp only [handle_entries_loop, loopOut, loopCost]
      exact runsAs_cast
        (runsAs_bind h1 (runsAs_bind h2 (runsAs_ret w _))) (by omega)

end

/-- `handle_entries` runs as `loopOut` with one extra operation (`read_dir`)
in every world. -/
theorem handle_entries_runs (P : Bytes → IResult Tmpl) (w : Option Nat)
    (indir : String) (es : List Entry) :
    RunsAs w (handle_entries P w indir es)
      (loopOut P indir es) (1 + loopCost P es) := by
  unfold handle_entries
  exact runsAs_bind (runsAs_ioOp w) (handle_entries_loop_runs P w indir es)

/-- `compile_templates` runs as `compileOut` with operation count
`compileCost` in every world. -/
theorem compile_templates_runs (P : Bytes → IResult Tmpl) (w : Option Nat)
    (utils indir : String) (es : List Entry) :
    RunsAs w (compile_templates P w utils indir es)
      (compileOut P utils indir es) (compileCost P es) := by
  unfold compile_templates compileOut compileCost
  exact runsAs_cast
    (runsAs_bind (runsAs_ioOp w)
      (runsAs_bind (runsAs_ioOp w)
        (runsAs_bind (runsAs_ioOp w)
          (runsAs_bind (handle_entries_runs P w indir es)
            (runsAs_bind (runsAs_ioOp w) (runsAs_ret w _))))))
    (by omega)

/-- In the world with no I/O failure a run always returns its value. -/
theorem runsAs_none {α : Type} {m : M α} {a : α} {c : Nat}
    (h : RunsAs none m a c) (n : Nat) : m n = .ok (a, n + c) := by
  have hn := h n
  simpa [hits] using hn

/-- In a world that fails an operation the run actually performs, the run
returns the error. -/
theorem runsAs_err {α : Type} {m : M α} {a : α} {c : Nat} {k : Nat}
    (h : RunsAs (some k) m a c) (hk : k < c) : m 0 = .error () := by
  have hn := h 0
  have hh : hits (some k) 0 c = true := by
    simp only [hits, decide_eq_true_eq]
    omega
  rw [hh] at hn
  simpa using hn

/-- The loop value over a concatenation of entry lists is the componentwise
concatenation of the loop values. -/
theorem loopOut_append (P : Bytes → IResult Tmpl) (indir : String)
    (l1 l2 : List Entry) :
    loopOut P indir (l1 ++ l2) =
      ((loopOut P indir l1).1 ++ (loopOut P indir l2).1,
       (loopOut P indir l1).2.1 ++ (loopOut P indir l2).2.1,
       (loopOut P indir l1).2.2 ++ (loopOut P indir l2).2.2) := by
  induction l1 with
  | nil => simp [loopOut]
  | cons e es ih =>
      simp [loopOut, ih, String.append_assoc, List.append_assoc]

/-- The loop operation count over a concatenation is the sum of the counts. -/
theorem loopCost_append (P : Bytes → IResult Tmpl) (l1 l2 : List Entry) :
    loopCost P (l1 ++ l2) = loopCost P l1 + loopCost P l2 := by
  induction l1 with
  | nil => simp [loopCost]
  | cons e es ih =>
      show loopCost P (e :: (es ++ l2)) = loopCost P (e :: es) + loopCost P l2
      simp only [loopCost]
      rw [ih]
      omega

/-! ### The runtime support library, modelled from the spec -/

/-- Modelled from the spec: the escaping capability of src/template_utils.rs,
which is not part of this tree.  The spec requires an HTML-escaped
representation "escaping at minimum the characters `<`, `>`, `&`, and quote
characters"; `escapeChar` is the text written for one character of the
displayed content. -/
def escapeChar (c : Char) : String :=
  if c = '<' then "&lt;"
  else if c = '>' then "&gt;"
  else if c = '&' then "&amp;"
  else if c = '"' then "&quot;"
  else if c = Char.ofNat 39 then "&#39;"
  else String.singleton c

/-- The escaped text for a list of characters, in order. -/
def escape_list : List Char → String
  | [] => ""
  | c :: cs => escapeChar c ++ escape_list cs

/-- Modelled from the spec: `to_html` on displayable content (the escaping
capability applied by generated code to every non-raw interpolation, and
exercised by the `encoded` test of src/lib.rs lines 174-179) writes the
HTML-escaped representation of the content's display text to the sink. -/
def to_html (s : String) : String := escape_list s.data

/-- Modelled from the spec: the raw/unescaped wrapper `Html` of
src/template_utils.rs, a marker construct around already-safe text. -/
structure Html where
  content : String

/-- Modelled from the spec: rendering `Html(s)` writes the contained text
verbatim to the sink, bypassing the escaping capability (exercised by the
`raw_html` test of src/lib.rs lines 180-185). -/
def Html.to_html (h : Html) : String := h.content

/-! ### Concrete instances used to exhibit the theorems on closed inputs -/

/-- A concrete template value: `gen` emits a placeholder function text. -/
def demoTmpl : Tmpl := ⟨fun name => "fn " ++ name ++ "()"⟩

/-- A parser that accepts every input. -/
def demoDone : Bytes → IResult Tmpl := fun _ => .Done [] demoTmpl

/-- A parser that rejects every input with a parse error. -/
def demoError : Bytes → IResult Tmpl := fun _ => .Error "Alt"

/-- A parser that reports every input as incomplete. -/
def demoIncomplete : Bytes → IResult Tmpl := fun _ => .Incomplete "Size(1)"

/-! ### The claims -/

/-- Claim C2: `compile_templates` compiles exactly those regular files whose
names end in ".rs.html".  A file entry without the suffix is skipped
entirely: no output, no module line, no warning, and no operations beyond
fetching the entry and its file type.  For a file with the suffix whose
parse succeeds, with {name} the filename minus the suffix, the parent module
receives `mod template_{name};` and the re-export `pub use
self::template_{name}::{name};`, and the created file template_{name}.rs
holds the code the generator emits for function name {name}. -/
theorem claim_C2 (P : Bytes → IResult Tmpl) (indir filename : String)
    (content : Bytes) :
    (ends_with filename ".rs.html" = false →
      ∀ n, handle_entry P none indir (.file (some filename) content) n
        = .ok (("", [], []), n + 2))
    ∧ (∀ rest t, ends_with filename ".rs.html" = true →
        P content = .Done rest t →
        ∀ n, handle_entry P none indir (.file (some filename) content) n
          = .ok (("mod template_" ++ strip_suffix filename ".rs.html"
                    ++ ";\npub use self::template_"
                    ++ strip_suffix filename ".rs.html" ++ "::"
                    ++ strip_suffix filename ".rs.html" ++ ";\n\n",
                  [(["template_" ++ strip_suffix filename ".rs.html" ++ ".rs"],
                    t.gen (strip_suffix filename ".rs.html"))],
                  []),
                 n + 7)) := by
  constructor
  · intro hsuf n
    rw [runsAs_none (handle_entry_runs P none indir
      (.file (some filename) content)) n]
    simp [entryOut, entryCost, hsuf]
  · intro rest t hsuf hP n
    rw [runsAs_none (handle_entry_runs P none indir
      (.file (some filename) content)) n]
    simp [entryOut, entryCost, htOut, htCost, hsuf, hP]

/-- Witness for C2 on closed inputs: a `.txt` file is skipped, a `.rs.html`
file accepted by the parser yields the module line and the generated file. -/
theorem claim_C2_witness :
    handle_entry demoDone none "t" (.file (some "x.txt") [7]) 0
      = .ok (("", [], []), 2)
    ∧ handle_entry demoDone none "t" (.file (some "hello.rs.html") [7]) 0
      = .ok (("mod template_hello;\npub use self::template_hello::hello;\n\n",
              [(["template_hello.rs"], "fn hello()")], []), 7) :=
  ⟨((claim_C2 demoDone "t" "x.txt" [7]).1 (by decide) 0).trans rfl,
   ((claim_C2 demoDone "t" "hello.rs.html" [7]).2 [] demoTmpl (by decide)
      rfl 0).trans rfl⟩

/-- Claim C4: a template file is processed atomically.  For a file entry
with the ".rs.html" suffix, either the parse succeeds and both the generated
file template_{name}.rs and the module/re-export lines in the parent module
are produced, or the parse fails and the file is entirely skipped: no
generated file and no module text, only a warning. -/
theorem claim_C4 (P : Bytes → IResult Tmpl) (indir filename : String)
    (content : Bytes) (hsuf : ends_with filename ".rs.html" = true) :
    (∃ rest t, P content = .Done rest t ∧ ∀ n,
        handle_entry P none indir (.file (some filename) content) n
          = .ok (("mod template_" ++ strip_suffix filename ".rs.html"
                    ++ ";\npub use self::template_"
                    ++ strip_suffix filename ".rs.html" ++ "::"
                    ++ strip_suffix filename ".rs.html" ++ ";\n\n",
                  [(["template_" ++ strip_suffix filename ".rs.html" ++ ".rs"],
                    t.gen (strip_suffix filename ".rs.html"))],
                  []),
                 n + 7))
    ∨ ((∀ rest t, P content ≠ .Done rest t) ∧ ∃ msg, ∀ n,
        handle_entry P none indir (.file (some filename) content) n
          = .ok (("", [], [msg]), n + 4)) := by
  cases hP : P content with
  | Done rest t =>
      left
      refine ⟨rest, t, rfl, fun n => ?_⟩
      rw [runsAs_none (handle_entry_runs P none indir
        (.file (some filename) content)) n]
      simp [entryOut, entryCost, htOut, htCost, hsuf, hP]
  | Error err =>
      right
      constructor
      · intro rest t h
        exact IResult.noConfusion h
      · refine ⟨"cargo:warning=Template parse error in \""
          ++ (indir ++ "/" ++ filename) ++ "\": " ++ err, fun n => ?_⟩
        rw [runsAs_none (handle_entry_runs P none indir
          (.file (some filename) content)) n]
        simp [entryOut, entryCost, htOut, htCost, hsuf, hP]
  | Incomplete needed =>
      right
      constructor
      · intro rest t h
        exact IResult.noConfusion h
      · refine ⟨"cargo:warning=Failed to parse template \""
          ++ (indir ++ "/" ++ filename) ++ "\": " ++ needed ++ " needed",
          fun n => ?_⟩
        rw [runsAs_none (handle_entry_runs P none indir
          (.file (some filename) content)) n]
        simp [entryOut, entryCost, htOut, htCost, hsuf, hP]

/-- Witness for C4 on closed inputs: with an accepting parser the file
produces both the generated file and the module lines. -/
theorem claim_C4_witness :
    handle_entry demoDone none "in" (.file (some "a.rs.html") [7]) 0
      = .ok (("mod template_a;\npub use self::template_a::a;\n\n",
              [(["template_a.rs"], "fn a()")], []), 7) := by
  rcases claim_C4 demoDone "in" "a.rs.html" [7] (by decide) with
    ⟨rest, t, hD, h⟩ | ⟨hno, _⟩
  · have hD' : IResult.Done ([] : Bytes) demoTmpl = .Done rest t := hD
    obtain ⟨hr, ht⟩ := by simpa using hD'
    subst ht
    exact (h 0).trans rfl
  · exact absurd rfl (hno [] demoTmpl)

/-- Claim C5: a subdirectory with a UTF-8 name is mirrored: the parent
module receives `pub mod {name};`, the output subdirectory contains a
mod.rs holding exactly what recursively processing the subdirectory's
entries writes, all files created below it carry the directory prefix, and
(second conjunct) a template file inside the subdirectory is re-exported by
a `pub use` line written into that directory's module, so the module tree
mirrors the input tree to arbitrary depth. -/
theorem claim_C5 (P : Bytes → IResult Tmpl) (indir dname : String)
    (es : List Entry) :
    (∀ n, handle_entry P none indir (.dir (some dname) es) n
        = .ok (("pub mod " ++ dname ++ ";\n\n",
                ([dname, "mod.rs"], (loopOut P (indir ++ "/" ++ dname) es).1)
                  :: (loopOut P (indir ++ "/" ++ dname) es).2.1.map
                      (fun p => (dname :: p.1, p.2)),
                (loopOut P (indir ++ "/" ++ dname) es).2.2),
               n + (6 + loopCost P es)))
    ∧ (∀ filename content rest t, ends_with filename ".rs.html" = true →
        P content = .Done rest t →
        ∀ n, handle_entry P none (indir ++ "/" ++ dname)
            (.file (some filename) content) n
          = .ok (("mod template_" ++ strip_suffix filename ".rs.html"
                    ++ ";\npub use self::template_"
                    ++ strip_suffix filename ".rs.html" ++ "::"
                    ++ strip_suffix filename ".rs.html" ++ ";\n\n",
                  [(["template_" ++ strip_suffix filename ".rs.html" ++ ".rs"],
                    t.gen (strip_suffix filename ".rs.html"))],
                  []),
                 n + 7)) := by
  constructor
  · intro n
    rw [runsAs_none (handle_entry_runs P none indir (.dir (some dname) es)) n]
    simp [entryOut, entryCost]
  · intro filename content rest t hsuf hP n
    rw [runsAs_none (handle_entry_runs P none (indir ++ "/" ++ dname)
      (.file (some filename) content)) n]
    simp [entryOut, entryCost, htOut, htCost, hsuf, hP]

/-- Witness for C5 on closed inputs: a directory holding one template file
yields the `pub mod`, the mod.rs with the module/re-export lines, and the
generated file under the directory prefix. -/
theorem claim_C5_witness :
    handle_entry demoDone none "in"
        (.dir (some "sub") [.file (some "x.rs.html") [7]]) 0
      = .ok (("pub mod sub;\n\n",
              [(["sub", "mod.rs"],
                "mod template_x;\npub use self::template_x::x;\n\n"),
               (["sub", "template_x.rs"], "fn x()")], []), 13)
    ∧ handle_entry demoDone none ("in" ++ "/" ++ "sub")
        (.file (some "x.rs.html") [7]) 0
      = .ok (("mod template_x;\npub use self::template_x::x;\n\n",
              [(["template_x.rs"], "fn x()")], []), 7) :=
  ⟨((claim_C5 demoDone "in" "sub" [.file (some "x.rs.html") [7]]).1 0).trans
      rfl,
   ((claim_C5 demoDone "in" "sub" [.file (some "x.rs.html") [7]]).2
      "x.rs.html" [7] [] demoTmpl (by decide) rfl 0).trans rfl⟩

/-- Claim C10: the generated templates.rs always consists of the fixed
header opening `mod templates`, then all per-file module declarations (the
text the entry loop wrote), then the embedded source text of the runtime
support library, then the closing brace — for every parser, every entry
list and every run position, so the emitted module is self-contained no
matter which or how many templates compiled successfully. -/
theorem claim_C10 (P : Bytes → IResult Tmpl) (utils indir : String)
    (es : List Entry) (n : Nat) :
    compile_templates P none utils indir es n
      = .ok (((["templates.rs"],
               templatesHeader ++ (loopOut P indir es).1 ++ utils
                 ++ "\n\x7d\n")
               :: (loopOut P indir es).2.1.map
                   (fun p => ("templates" :: p.1, p.2)),
              (loopOut P indir es).2.2),
             n + (5 + loopCost P es)) := by
  rw [runsAs_none (compile_templates_runs P none utils indir es) n]
  simp [compileOut, compileCost]

/-- Prepending the empty string is the identity. -/
theorem string_nil_append (s : String) : "" ++ s = s := rfl

/-- Claim C1: for every template file whose parse returns Error or
Incomplete, handle_template prints one warning whose text names the file
path and the failure, returns Ok(false), and creates no output file; in
handle_entries the module declaration and re-export for that file are
omitted, and every other entry of the same run contributes exactly what it
contributes without the failing file present — both failure kinds collapse
to this same per-file skip shape, differing only in the warning text. -/
theorem claim_C1 (P : Bytes → IResult Tmpl) (indir filename : String)
    (content : Bytes) (err nd : String)
    (hsuf : ends_with filename ".rs.html" = true)
    (hfail : P content = .Error err ∨ P content = .Incomplete nd) :
    ∃ msg : String,
      (∀ n, handle_template P none (strip_suffix filename ".rs.html")
          (indir ++ "/" ++ filename) content n
          = .ok ((false, [], [msg]), n + 2))
      ∧ (indir ++ "/" ++ filename).data <:+: msg.data
      ∧ (err.data <:+: msg.data ∨ nd.data <:+: msg.data)
      ∧ (∀ es1 es2 n,
          handle_entries P none indir
              (es1 ++ Entry.file (some filename) content :: es2) n
            = .ok (((loopOut P indir es1).1 ++ (loopOut P indir es2).1,
                    (loopOut P indir es1).2.1 ++ (loopOut P indir es2).2.1,
                    (loopOut P indir es1).2.2
                      ++ msg :: (loopOut P indir es2).2.2),
                   n + (1 + (loopCost P es1 + (4 + loopCost P es2))))) := by
  rcases hfail with hP | hP
  · refine ⟨"cargo:warning=Template parse error in \""
        ++ (indir ++ "/" ++ filename) ++ "\": " ++ err,
      fun n => ?_, ?_, Or.inl ⟨("cargo:warning=Template parse error in \""
        ++ (indir ++ "/" ++ filename) ++ "\": ").data, [],
        by simp [String.data_append]⟩, fun es1 es2 n => ?_⟩
    · rw [runsAs_none (handle_template_runs P none
        (strip_suffix filename ".rs.html") (indir ++ "/" ++ filename)
        content) n]
      simp [htOut, htCost, hP]
    · exact ⟨"cargo:warning=Template parse error in \"".data,
        ("\": " ++ err).data, by simp [String.data_append]⟩
    · rw [runsAs_none (handle_entries_runs P none indir
        (es1 ++ Entry.file (some filename) content :: es2)) n]
      have hOut : entryOut P indir (.file (some filename) content)
          = ("", [], ["cargo:warning=Template parse error in \""
              ++ (indir ++ "/" ++ filename) ++ "\": " ++ err]) := by
        simp [entryOut, htOut, hsuf, hP]
      have hCost : entryCost P (.file (some filename) content) = 4 := by
        simp [entryCost, htCost, hsuf, hP]
      simp only [loopOut_append, loopCost_append, loopOut, loopCost,
        hOut, hCost]
      simp [string_nil_append]
  · refine ⟨"cargo:warning=Failed to parse template \""
        ++ (indir ++ "/" ++ filename) ++ "\": " ++ nd ++ " needed",
      fun n => ?_, ?_, Or.inr ⟨("cargo:warning=Failed to parse template \""
        ++ (indir ++ "/" ++ filename) ++ "\": ").data, (" needed").data,
        by simp [String.data_append]⟩, fun es1 es2 n => ?_⟩
    · rw [runsAs_none (handle_template_runs P none
        (strip_suffix filename ".rs.html") (indir ++ "/" ++ filename)
        content) n]
      simp [htOut, htCost, hP]
    · exact ⟨"cargo:warning=Failed to parse template \"".data,
        ("\": " ++ nd ++ " needed").data, by simp [String.data_append]⟩
    · rw [runsAs_none (handle_entries_runs P none indir
        (es1 ++ Entry.file (some filename) content :: es2)) n]
      have hOut : entryOut P indir (.file (some filename) content)
          = ("", [], ["cargo:warning=Failed to parse template \""
              ++ (indir ++ "/" ++ filename) ++ "\": " ++ nd ++ " needed"]) := by
        simp [entryOut, htOut, hsuf, hP]
      have hCost : entryCost P (.file (some filename) content) = 4 := by
        simp [entryCost, htCost, hsuf, hP]
      simp only [loopOut_append, loopCost_append, loopOut, loopCost,
        hOut, hCost]
      simp [string_nil_append]

/-- Witness for C1 on closed inputs: with a parser rejecting every input,
the template is skipped with Ok(false) and one warning naming the path. -/
theorem claim_C1_witness :
    ∃ msg : String,
      handle_template demoError none "a" ("in" ++ "/" ++ "a.rs.html") [9] 0
        = .ok ((false, [], [msg]), 0 + 2)
      ∧ ("in" ++ "/" ++ "a.rs.html").data <:+: msg.data := by
  obtain ⟨msg, h1, h2, h3, h4⟩ :=
    claim_C1 demoError "in" "a.rs.html" [9] "Alt" "" (by decide) (Or.inl rfl)
  exact ⟨msg, h1 0, h2⟩

/-- Claim C3: an I/O failure at any of the operations a run performs —
creating or writing templates.rs, an output subdirectory or mod.rs, or a
generated template file — makes compile_templates return Err, aborting the
whole run; by contrast, in a run with no I/O failure compile_templates
returns Ok for every parser, so parse failures alone never abort a run. -/
theorem claim_C3 (P : Bytes → IResult Tmpl) (utils indir : String)
    (es : List Entry) :
    (∀ n, compile_templates P none utils indir es n
        = .ok (compileOut P utils indir es, n + compileCost P es))
    ∧ (∀ k, k < compileCost P es →
        compile_templates P (some k) utils indir es 0 = .error ()) :=
  ⟨runsAs_none (compile_templates_runs P none utils indir es),
   fun k hk =>
     runsAs_err (compile_templates_runs P (some k) utils indir es) hk⟩

/-- Witness for C3 on closed inputs: the run with no I/O failure returns
Ok, and failing operation 3 (creating the generated template file) makes
the same run return Err. -/
theorem claim_C3_witness :
    compile_templates demoDone none "UTILS" "in"
        [.file (some "x.rs.html") [7]] 0
      = .ok (compileOut demoDone "UTILS" "in" [.file (some "x.rs.html") [7]],
             0 + compileCost demoDone [.file (some "x.rs.html") [7]])
    ∧ compile_templates demoDone (some 3) "UTILS" "in"
        [.file (some "x.rs.html") [7]] 0 = .error () :=
  ⟨(claim_C3 demoDone "UTILS" "in" [.file (some "x.rs.html") [7]]).1 0,
   (claim_C3 demoDone "UTILS" "in" [.file (some "x.rs.html") [7]]).2 3
     (by decide)⟩

/-- Claim C8: the pipeline is deterministic: two runs of handle_template on
the same input buffer, from any two operation positions of a run with no
I/O failure, return the same value — in particular byte-identical generated
source. -/
theorem claim_C8 (P : Bytes → IResult Tmpl) (name path : String)
    (content : Bytes) (n₁ n₂ : Nat)
    (r₁ r₂ : (Bool × List (List String × String) × List String) × Nat)
    (h₁ : handle_template P none name path content n₁ = .ok r₁)
    (h₂ : handle_template P none name path content n₂ = .ok r₂) :
    r₁.1 = r₂.1 := by
  rw [runsAs_none (handle_template_runs P none name path content) n₁] at h₁
  rw [runsAs_none (handle_template_runs P none name path content) n₂] at h₂
  rw [← Except.ok.inj h₁, ← Except.ok.inj h₂]

/-- Witness for C8 on closed inputs: two runs at positions 0 and 5 both
yield the same generated file content. -/
theorem claim_C8_witness :
    ((true, [(["template_n.rs"], "fn n()")], [])
        : Bool × List (List String × String) × List String)
      = (true, [(["template_n.rs"], "fn n()")], []) :=
  claim_C8 demoDone "n" "p" [9] 0 5
    ((true, [(["template_n.rs"], "fn n()")], []), 4)
    ((true, [(["template_n.rs"], "fn n()")], []), 9)
    rfl rfl

/-- Claim C9: an entry whose name is not valid UTF-8 is silently skipped:
whether file or directory it produces no module text, no output file and no
warning, the other entries of the run contribute exactly what they would
contribute without it, and compile_templates still returns Ok. -/
theorem claim_C9 (P : Bytes → IResult Tmpl) (indir : String) (content : Bytes)
    (sub : List Entry) :
    (∀ n, handle_entry P none indir (.file none content) n
        = .ok (("", [], []), n + 2))
    ∧ (∀ n, handle_entry P none indir (.dir none sub) n
        = .ok (("", [], []), n + 2))
    ∧ (∀ es1 es2 n,
        handle_entries P none indir (es1 ++ Entry.file none content :: es2) n
          = .ok (((loopOut P indir es1).1 ++ (loopOut P indir es2).1,
                  (loopOut P indir es1).2.1 ++ (loopOut P indir es2).2.1,
                  (loopOut P indir es1).2.2 ++ (loopOut P indir es2).2.2),
                 n + (1 + (loopCost P es1 + (2 + loopCost P es2)))))
    ∧ (∀ utils es1 es2,
        ∃ v, compile_templates P none utils indir
            (es1 ++ Entry.dir none sub :: es2) 0 = .ok v) := by
  refine ⟨fun n => ?_, fun n => ?_, fun es1 es2 n => ?_,
    fun utils es1 es2 => ?_⟩
  · rw [runsAs_none (handle_entry_runs P none indir (.file none content)) n]
    simp [entryOut, entryCost]
  · rw [runsAs_none (handle_entry_runs P none indir (.dir none sub)) n]
    simp [entryOut, entryCost]
  · rw [runsAs_none (handle_entries_runs P none indir
      (es1 ++ Entry.file none content :: es2)) n]
    simp only [loopOut_append, loopCost_append, loopOut, loopCost,
      entryOut, entryCost]
    simp [string_nil_append]
  · exact ⟨_, runsAs_none (compile_templates_runs P none utils indir
      (es1 ++ Entry.dir none sub :: es2)) 0⟩

/-- No character of the escaped text is a raw `<`, `>`, double quote or
apostrophe: each such input character is replaced by an entity, and entity
text itself contains none of them. -/
theorem escape_list_no_specials (l : List Char) :
    ∀ c ∈ (escape_list l).data,
      c ≠ '<' ∧ c ≠ '>' ∧ c ≠ '"' ∧ c ≠ Char.ofNat 39 := by
  induction l with
  | nil =>
      intro c hc
      simp [escape_list] at hc
  | cons d ds ih =>
      intro c hc
      have hrw : escape_list (d :: ds) = escapeChar d ++ escape_list ds := rfl
      rw [hrw, String.data_append] at hc
      rcases List.mem_append.mp hc with h | h
      · unfold escapeChar at h
        by_cases h1 : d = '<'
        · rw [if_pos h1] at h
          have e : ("&lt;").data = ['&', 'l', 't', ';'] := rfl
          rw [e] at h
          fin_cases h <;> decide
        · rw [if_neg h1] at h
          by_cases h2 : d = '>'
          · rw [if_pos h2] at h
            have e : ("&gt;").data = ['&', 'g', 't', ';'] := rfl
            rw [e] at h
            fin_cases h <;> decide
          · rw [if_neg h2] at h
            by_cases h3 : d = '&'
            · rw [if_pos h3] at h
              have e : ("&amp;").data = ['&', 'a', 'm', 'p', ';'] := rfl
              rw [e] at h
              fin_cases h <;> decide
            · rw [if_neg h3] at h
              by_cases h4 : d = '"'
              · rw [if_pos h4] at h
                have e : ("&quot;").data = ['&', 'q', 'u', 'o', 't', ';'] := rfl
                rw [e] at h
                fin_cases h <;> decide
              · rw [if_neg h4] at h
                by_cases h5 : d = Char.ofNat 39
                · rw [if_pos h5] at h
                  have e : ("&#39;").data = ['&', '#', '3', '9', ';'] := rfl
                  rw [e] at h
                  fin_cases h <;> decide
                · rw [if_neg h5] at h
                  have hc' : c = d := by simpa using h
                  subst hc'
                  exact ⟨h1, h2, h4, h5⟩
      · exact ih c h

/-- Claim C6: the escaping capability writes an HTML-escaped
representation: no raw `<`, `>` or quote character survives anywhere in the
output, and each of `<`, `>`, `&` and the double quote is rewritten to its
entity — in particular "a < b" renders as exactly "a &lt; b". -/
theorem claim_C6 :
    (∀ s : String, ∀ c ∈ (to_html s).data,
        c ≠ '<' ∧ c ≠ '>' ∧ c ≠ '"' ∧ c ≠ Char.ofNat 39)
    ∧ to_html "a < b" = "a &lt; b"
    ∧ to_html "a>b" = "a&gt;b"
    ∧ to_html "a&b" = "a&amp;b"
    ∧ to_html "a\"b" = "a&quot;b" :=
  ⟨fun s => escape_list_no_specials s.data, rfl, rfl, rfl, rfl⟩

/-- Witness for C6 on closed inputs: the first conjunct applied to the
string "x<y" and the character of its escaped form. -/
theorem claim_C6_witness :
    ('x' : Char) ≠ '<' ∧ ('x' : Char) ≠ '>' ∧ ('x' : Char) ≠ '"'
      ∧ ('x' : Char) ≠ Char.ofNat 39 :=
  claim_C6.1 "x<y" 'x' (by decide)

/-- Claim C7: the raw wrapper bypasses escaping: rendering Html(s) writes
exactly the bytes of s for every string s, even when s contains `<`, `>`
or `&` — an input on which the escaping capability would have produced
different bytes. -/
theorem claim_C7 :
    (∀ s : String, Html.to_html ⟨s⟩ = s)
    ∧ Html.to_html ⟨"a<b>c</b>"⟩ = "a<b>c</b>"
    ∧ to_html "a<b>c</b>" ≠ "a<b>c</b>" :=
  ⟨fun s => rfl, rfl, by decide⟩

end Ructe
